import Mathlib

/-
Formal model of the motion-control command subsystem of FiapAutoKraft.

The embedding covers, translated from the Python sources:
  * Console-ComputationalVision/infrastructure/grbl_sender.py
      (SerialGcodeSender: send_coordinates, home, send_raw, _send_command,
       _read_until_ok, _trace_coordinates, _sum_traces, current_position,
       disconnect)
  * Console-ComputationalVision/services/GrblSender.py (read_until_ok)
  * Console-ComputationalVision/application/send_coordinates.py
      (CommandDispatcher worker loop and dispatch)
  * Console-ComputationalVision/application/poll_current_position.py and
    Console-ComputationalVision/console_computational_vision/application/
    poll_current_position.py (PositionPoller tick body)
  * Console-ComputationalVision/shared/scheduling.py (IntervalScheduler)
  * Console-ComputationalVision/main.py (VisionGUI._dispatch_command)

Modelling conventions:
  * Python floats are modelled as exact rationals; the comparisons and sums
    performed by the code are therefore exact in the model, so statements of
    the form "equal within 1e-6" are settled by exact equality.
  * Wire writes are modelled structurally: a written G-code line is a value
    of the GLine inductive whose numeric payloads are the exact numbers that
    the code formats into the line; the textual formatting of a line is
    presentation only and is not modelled.
  * Device input is modelled as read streams: each wait-for-acknowledgment
    read consumes one stream, a list of read events tagged with the elapsed
    monotonic time at the top-of-loop deadline check for that iteration.
    An empty string models an empty or whitespace-only readline result.
  * Raising a Python exception is modelled with Except.error.
  * time.monotonic for trace timestamps is modelled by a clock counter in
    the sender state that advances when an entry is appended.
-/

namespace AutoKraft

/-- Position dataclass from domain/motion/position.py: x, y, z floats. -/
structure Position where
  x : ℚ
  y : ℚ
  z : ℚ
deriving DecidableEq, Repr

/-- Feedrate dataclass from domain/motion/position.py. -/
structure Feedrate where
  value : ℚ
deriving DecidableEq, Repr

/-- One entry of SerialGcodeSender._coordinates: the dict
    {x, y, z, timestamp} appended by _trace_coordinates. -/
structure TraceEntry where
  x : ℚ
  y : ℚ
  z : ℚ
  timestamp : ℚ
deriving DecidableEq, Repr

/-- A G-code line written to the wire, modelled structurally with exact
    numeric payloads. The raw constructor covers send_raw commands. -/
inductive GLine where
  | g21 : GLine
  | g91 : GLine
  | g90 : GLine
  | m2 : GLine
  | fr : (v : ℚ) → GLine
  | g1 : (x y z : ℚ) → GLine
  | raw : (s : String) → GLine
deriving DecidableEq, Repr

/-- SerialAck dataclass from infrastructure/grbl_sender.py. -/
structure SerialAck where
  ok : Bool
  message : String
  responses : List String
deriving DecidableEq, Repr

/-- One device read event: elapsed monotonic time at the top-of-loop check
    of the read iteration, and the decoded, stripped line ("" for an empty
    readline result). -/
structure ReadEv where
  t : ℚ
  s : String
deriving DecidableEq, Repr

/-- State of a SerialGcodeSender: connection flag (models
    self._serial is not None and open), the _coordinates trace, the lines
    written to the wire so far, a monotonic clock for timestamps, and the
    remaining device read streams (one consumed per acknowledgment wait). -/
structure SenderState where
  connected : Bool
  trace : List TraceEntry
  writes : List GLine
  clock : ℚ
  device : List (List ReadEv)
deriving DecidableEq, Repr

/-- Terminator test of the acknowledgment loops: a line equal to "ok" or
    starting with "error:". -/
def isTermLine (s : String) : Bool :=
  s == "ok" || s.startsWith "error:"

/-- SerialGcodeSender._read_until_ok: collect non-empty lines until a
    terminator, abandoning the loop once the elapsed time at the
    top-of-loop check reaches the timeout (default 5 seconds). -/
def read_until_ok (timeoutS : ℚ) : List ReadEv → List String
  | [] => []
  | e :: rest =>
    if e.t < timeoutS then
      if e.s = "" then read_until_ok timeoutS rest
      else if isTermLine e.s then [e.s]
      else e.s :: read_until_ok timeoutS rest
    else []

/-- SerialGcodeSender._send_command: raise if not connected, write and
    flush the line, and when wait_for_ok read until an acknowledgment,
    consuming one device read stream. -/
def send_command (st : SenderState) (line : GLine) (waitForOk : Bool) :
    Except String (List String × SenderState) :=
  if st.connected = false then Except.error "Serial port not connected"
  else
    let st1 : SenderState := { st with writes := st.writes ++ [line] }
    if waitForOk then
      match st1.device with
      | [] => Except.ok ([], st1)
      | stream :: rest =>
          Except.ok (read_until_ok 5 stream, { st1 with device := rest })
    else Except.ok ([], st1)

/-- Send a list of lines in order through send_command, concatenating the
    responses, as the for loop of send_coordinates does. -/
def sendLines (st : SenderState) : List GLine → Except String (List String × SenderState)
  | [] => Except.ok ([], st)
  | l :: ls =>
    match send_command st l true with
    | Except.error e => Except.error e
    | Except.ok (rs, st1) =>
      match sendLines st1 ls with
      | Except.error e => Except.error e
      | Except.ok (rs2, st2) => Except.ok (rs ++ rs2, st2)

/-- The framed command sequence of a relative move, from send_coordinates:
    G21, G91, F feedrate, G1 X Y Z, G90, M2. -/
def frame_lines (x y z f : ℚ) : List GLine :=
  [GLine.g21, GLine.g91, GLine.fr f, GLine.g1 x y z, GLine.g90, GLine.m2]

/-- The range check of send_coordinates: the prospective cumulative
    position leaves the configured ranges X,Y in [-5,5], Z in [-4,4]. -/
def outOfRange (sx sy sz x y z : ℚ) : Bool :=
  decide (sx + x > 5) || decide (sx + x < -5) ||
  decide (sy + y > 5) || decide (sy + y < -5) ||
  decide (sz + z > 4) || decide (sz + z < -4)

/-- SerialGcodeSender._trace_coordinates: append the accepted move with a
    monotonic timestamp. -/
def trace_coordinates (st : SenderState) (x y z : ℚ) : SenderState :=
  { st with trace := st.trace ++ [⟨x, y, z, st.clock⟩], clock := st.clock + 1 }

/-- Insert a trace entry behind all entries of smaller or equal timestamp:
    one step of a stable insertion sort by timestamp. -/
def insertByTimestamp (e : TraceEntry) : List TraceEntry → List TraceEntry
  | [] => [e]
  | a :: rest =>
    if a.timestamp ≤ e.timestamp then a :: insertByTimestamp e rest
    else e :: a :: rest

/-- Stable sort of the trace by timestamp, modelling the sorted builtin. -/
def sortByTimestamp : List TraceEntry → List TraceEntry
  | [] => []
  | e :: rest => insertByTimestamp e (sortByTimestamp rest)

/-- SerialGcodeSender._sum_traces: sort the trace by timestamp, then sum
    each component. -/
def sum_traces (trace : List TraceEntry) : ℚ × ℚ × ℚ :=
  (((sortByTimestamp trace).map TraceEntry.x).sum,
   ((sortByTimestamp trace).map TraceEntry.y).sum,
   ((sortByTimestamp trace).map TraceEntry.z).sum)

/-- SerialGcodeSender.home as a function of the send_coordinates
    implementation it calls: raise if not connected; if the trace is empty
    return ok "Already centered" without touching the wire; otherwise send
    the negated trace sum as one move and clear the trace on return. -/
def homeVia
    (sendC : SenderState → Position → Feedrate → Except String (SerialAck × SenderState))
    (st : SenderState) (f : Feedrate) : Except String (SerialAck × SenderState) :=
  if st.connected = false then Except.error "Serial port not connected"
  else if st.trace.isEmpty then
    Except.ok (⟨true, "Already centered", []⟩, st)
  else
    match sendC st ⟨-(sum_traces st.trace).1, -(sum_traces st.trace).2.1,
        -(sum_traces st.trace).2.2⟩ f with
    | Except.error e => Except.error e
    | Except.ok (ack, st1) => Except.ok (ack, { st1 with trace := [] })

/-- SerialGcodeSender.send_coordinates with explicit fuel for the mutual
    recursion with home: raise if not connected; if the prospective
    cumulative position is out of range, call home and return
    ok=false "Range exceeded"; otherwise send the framed sequence and
    append the move to the trace. -/
def sendCoordinatesF : Nat → SenderState → Position → Feedrate →
    Except String (SerialAck × SenderState)
  | fuel, st, p, f =>
    if st.connected = false then Except.error "Serial port not connected"
    else
      if outOfRange (sum_traces st.trace).1 (sum_traces st.trace).2.1
          (sum_traces st.trace).2.2 p.x p.y p.z then
        match fuel with
        | 0 => Except.error "recursion limit"
        | Nat.succ fuel =>
          match homeVia (sendCoordinatesF fuel) st f with
          | Except.error e => Except.error e
          | Except.ok (_, st1) =>
            Except.ok (⟨false, "Range exceeded", []⟩, st1)
      else
        match sendLines st (frame_lines p.x p.y p.z f.value) with
        | Except.error e => Except.error e
        | Except.ok (rs, st1) =>
          Except.ok (⟨true, "ok", rs⟩, trace_coordinates st1 p.x p.y p.z)

/-- SerialGcodeSender.send_coordinates. Fuel 1 is exact: the nested home
    call issues the negated trace sum, whose prospective position is the
    origin and therefore always in range, so the recursion depth is one. -/
def send_coordinates (st : SenderState) (p : Position) (f : Feedrate) :
    Except String (SerialAck × SenderState) :=
  sendCoordinatesF 1 st p f

/-- SerialGcodeSender.home. -/
def home (st : SenderState) (f : Feedrate) : Except String (SerialAck × SenderState) :=
  homeVia send_coordinates st f

/-- SerialGcodeSender.current_position: None when disconnected, otherwise
    the component-wise trace sum. -/
def current_position (st : SenderState) : Option Position :=
  if st.connected = false then none
  else
    some ⟨(sum_traces st.trace).1, (sum_traces st.trace).2.1, (sum_traces st.trace).2.2⟩

/-- SerialGcodeSender.disconnect: close the serial handle and forget the
    port. The trace field is not touched by the source. -/
def disconnect (st : SenderState) : SenderState :=
  { st with connected := false }

/-- SerialGcodeSender.send_raw: one send_command, then an acknowledgment
    that is unconditionally ok=true, with message "ok" when the call
    waited and "sent" otherwise. -/
def send_raw (st : SenderState) (cmd : String) (waitForOk : Bool) :
    Except String (SerialAck × SenderState) :=
  match send_command st (GLine.raw cmd) waitForOk with
  | Except.error e => Except.error e
  | Except.ok (rs, st1) =>
    Except.ok (⟨true, if waitForOk then "ok" else "sent", rs⟩, st1)

/-- Fold send_coordinates over a list of requested moves, as a caller
    issuing a sequence of moves does. -/
def applyMoves (st : SenderState) : List (Position × Feedrate) → Except String SenderState
  | [] => Except.ok st
  | (p, f) :: rest =>
    match send_coordinates st p f with
    | Except.error e => Except.error e
    | Except.ok (_, st1) => applyMoves st1 rest

/-- The running cumulative positions of a move sequence stay inside the
    configured ranges, starting from cumulative position s. -/
def moves_in_range : ℚ × ℚ × ℚ → List Position → Bool
  | _, [] => true
  | s, p :: rest =>
    !outOfRange s.1 s.2.1 s.2.2 p.x p.y p.z &&
      moves_in_range (s.1 + p.x, s.2.1 + p.y, s.2.2 + p.z) rest

/-- Component-wise total displacement of a move sequence. -/
def moves_total : List Position → ℚ × ℚ × ℚ
  | [] => (0, 0, 0)
  | p :: rest =>
    let t := moves_total rest
    (p.x + t.1, p.y + t.2.1, p.z + t.2.2)

/-- Whether a written line is a G1 move. -/
def isG1 : GLine → Bool
  | GLine.g1 _ _ _ => true
  | _ => false

lemma insertByTimestamp_perm (e : TraceEntry) (l : List TraceEntry) :
    (insertByTimestamp e l).Perm (e :: l) := by
  induction l with
  | nil => simp [insertByTimestamp]
  | cons a rest ih =>
    by_cases h : a.timestamp ≤ e.timestamp
    · have h1 : insertByTimestamp e (a :: rest) = a :: insertByTimestamp e rest := by
        simp [insertByTimestamp, h]
      rw [h1]
      exact (ih.cons a).trans (List.Perm.swap e a rest)
    · simp [insertByTimestamp, h]

lemma sortByTimestamp_perm (l : List TraceEntry) : (sortByTimestamp l).Perm l := by
  induction l with
  | nil => simp [sortByTimestamp]
  | cons e rest ih =>
    exact ((insertByTimestamp_perm e (sortByTimestamp rest)).trans (ih.cons e))

lemma sum_traces_eq_plain (t : List TraceEntry) :
    sum_traces t =
      ((t.map TraceEntry.x).sum, (t.map TraceEntry.y).sum, (t.map TraceEntry.z).sum) := by
  have h := sortByTimestamp_perm t
  simp only [sum_traces]
  rw [(h.map TraceEntry.x).sum_eq, (h.map TraceEntry.y).sum_eq, (h.map TraceEntry.z).sum_eq]

lemma sum_traces_nil : sum_traces [] = (0, 0, 0) := rfl

lemma sum_traces_append (t : List TraceEntry) (e : TraceEntry) :
    sum_traces (t ++ [e]) =
      ((sum_traces t).1 + e.x, (sum_traces t).2.1 + e.y, (sum_traces t).2.2 + e.z) := by
  simp [sum_traces_eq_plain]

lemma sendLines_ok (ls : List GLine) (st : SenderState) (hc : st.connected = true) :
    ∃ rs st1, sendLines st ls = Except.ok (rs, st1) ∧
      st1.connected = true ∧ st1.trace = st.trace ∧
      st1.writes = st.writes ++ ls ∧ st1.clock = st.clock ∧
      st1.device = st.device.drop ls.length := by
  induction ls generalizing st with
  | nil => exact ⟨[], st, by simp [sendLines], hc, rfl, by simp, rfl, by simp⟩
  | cons l ls ih =>
    cases hd : st.device with
    | nil =>
      have h1 : send_command st l true =
          Except.ok ([], { st with writes := st.writes ++ [l] }) := by
        simp [send_command, hc, hd]
      obtain ⟨rs, st1, hrun, hcon, htr, hw, hck, hdev⟩ :=
        ih { st with writes := st.writes ++ [l] } (by simp [hc])
      refine ⟨rs, st1, ?_, hcon, by simpa using htr, ?_, by simpa using hck, ?_⟩
      · simp [sendLines, h1, hrun]
      · simp [hw]
      · simp [hdev, hd]
    | cons stream rest =>
      have h1 : send_command st l true =
          Except.ok (read_until_ok 5 stream,
            { st with writes := st.writes ++ [l], device := rest }) := by
        simp [send_command, hc, hd]
      obtain ⟨rs, st1, hrun, hcon, htr, hw, hck, hdev⟩ :=
        ih { st with writes := st.writes ++ [l], device := rest } (by simp [hc])
      refine ⟨read_until_ok 5 stream ++ rs, st1, ?_, hcon, by simpa using htr, ?_,
        by simpa using hck, ?_⟩
      · simp [sendLines, h1, hrun]
      · simp [hw]
      · simp [hdev, hd]

lemma outOfRange_neg_sum (sx sy sz : ℚ) :
    outOfRange sx sy sz (-sx) (-sy) (-sz) = false := by
  simp [outOfRange]

lemma sendCoordinatesF_inrange (n : Nat) (st : SenderState) (p : Position) (f : Feedrate)
    (hc : st.connected = true)
    (hr : outOfRange (sum_traces st.trace).1 (sum_traces st.trace).2.1
      (sum_traces st.trace).2.2 p.x p.y p.z = false) :
    ∃ rs st1, sendCoordinatesF n st p f = Except.ok (⟨true, "ok", rs⟩, st1) ∧
      st1.connected = true ∧
      st1.trace = st.trace ++ [⟨p.x, p.y, p.z, st.clock⟩] ∧
      st1.writes = st.writes ++ frame_lines p.x p.y p.z f.value ∧
      st1.clock = st.clock + 1 ∧
      st1.device = st.device.drop 6 := by
  obtain ⟨rs, st1, hrun, hcon, htr, hw, hck, hdev⟩ :=
    sendLines_ok (frame_lines p.x p.y p.z f.value) st hc
  refine ⟨rs, trace_coordinates st1 p.x p.y p.z, ?_, by simp [trace_coordinates, hcon],
    ?_, ?_, ?_, ?_⟩
  · rw [sendCoordinatesF.eq_def]
    simp [hc, hr, hrun]
  · simp [trace_coordinates, htr, hck]
  · simp [trace_coordinates, hw]
  · simp [trace_coordinates, hck]
  · simpa [trace_coordinates, frame_lines] using hdev

lemma sendCoordinatesF_fuel_eq (m n : Nat) (st : SenderState) (p : Position) (f : Feedrate)
    (hr : outOfRange (sum_traces st.trace).1 (sum_traces st.trace).2.1
      (sum_traces st.trace).2.2 p.x p.y p.z = false) :
    sendCoordinatesF m st p f = sendCoordinatesF n st p f := by
  simp only [sendCoordinatesF.eq_def, hr, Bool.false_eq_true, if_false]

lemma homeVia_fuel_eq (m n : Nat) (st : SenderState) (f : Feedrate) :
    homeVia (sendCoordinatesF m) st f = homeVia (sendCoordinatesF n) st f := by
  unfold homeVia
  rw [sendCoordinatesF_fuel_eq m n st ⟨-(sum_traces st.trace).1, -(sum_traces st.trace).2.1,
    -(sum_traces st.trace).2.2⟩ f (outOfRange_neg_sum _ _ _)]

lemma homeVia_spec (n : Nat) (st : SenderState) (f : Feedrate) (hc : st.connected = true) :
    ∃ ack st1, homeVia (sendCoordinatesF n) st f = Except.ok (ack, st1) ∧
      st1.connected = true ∧ st1.trace = [] ∧
      (st.trace = [] →
        ack = ⟨true, "Already centered", []⟩ ∧ st1 = st) ∧
      (st.trace ≠ [] →
        ack.ok = true ∧
        st1.writes = st.writes ++ frame_lines (-(sum_traces st.trace).1)
          (-(sum_traces st.trace).2.1) (-(sum_traces st.trace).2.2) f.value) := by
  by_cases hem : st.trace = []
  · refine ⟨⟨true, "Already centered", []⟩, st, ?_, hc, hem, fun _ => ⟨rfl, rfl⟩,
      fun hne => absurd hem hne⟩
    simp [homeVia, hc, hem]
  · have hne : st.trace.isEmpty = false := by
      simpa [List.isEmpty_iff] using hem
    obtain ⟨rs, st1, hrun, hcon, htr, hw, hck, hdev⟩ :=
      sendCoordinatesF_inrange n st
        ⟨-(sum_traces st.trace).1, -(sum_traces st.trace).2.1, -(sum_traces st.trace).2.2⟩
        f hc (outOfRange_neg_sum _ _ _)
    refine ⟨⟨true, "ok", rs⟩, { st1 with trace := [] }, ?_, by simpa using hcon, rfl,
      fun hem2 => absurd hem2 hem, fun _ => ⟨rfl, by simpa using hw⟩⟩
    rw [homeVia]
    simp [hc, hne, hrun]

lemma applyMoves_invariant (ms : List (Position × Feedrate)) (st : SenderState)
    (hc : st.connected = true)
    (hb : moves_in_range (sum_traces st.trace) (ms.map Prod.fst) = true) :
    ∃ st1, applyMoves st ms = Except.ok st1 ∧ st1.connected = true ∧
      sum_traces st1.trace =
        ((sum_traces st.trace).1 + (moves_total (ms.map Prod.fst)).1,
         (sum_traces st.trace).2.1 + (moves_total (ms.map Prod.fst)).2.1,
         (sum_traces st.trace).2.2 + (moves_total (ms.map Prod.fst)).2.2) := by
  induction ms generalizing st with
  | nil =>
    refine ⟨st, by simp [applyMoves], hc, ?_⟩
    simp [moves_total]
  | cons m rest ih =>
    obtain ⟨p, f⟩ := m
    have hb1 : outOfRange (sum_traces st.trace).1 (sum_traces st.trace).2.1
        (sum_traces st.trace).2.2 p.x p.y p.z = false ∧
        moves_in_range ((sum_traces st.trace).1 + p.x, (sum_traces st.trace).2.1 + p.y,
          (sum_traces st.trace).2.2 + p.z) (rest.map Prod.fst) = true := by
      simpa [moves_in_range, Bool.and_eq_true, Bool.not_eq_true'] using hb
    obtain ⟨rs, st1, hrun, hcon, htr, hw, hck, hdev⟩ :=
      sendCoordinatesF_inrange 1 st p f hc hb1.1
    have hsum1 : sum_traces st1.trace =
        ((sum_traces st.trace).1 + p.x, (sum_traces st.trace).2.1 + p.y,
         (sum_traces st.trace).2.2 + p.z) := by
      rw [htr, sum_traces_append]
    obtain ⟨st2, hrun2, hcon2, hsum2⟩ := ih st1 hcon (by rw [hsum1]; exact hb1.2)
    refine ⟨st2, ?_, hcon2, ?_⟩
    · simp [applyMoves, send_coordinates, hrun, hrun2]
    · rw [hsum2, hsum1]
      simp only [List.map_cons, moves_total, Prod.mk.injEq]
      exact ⟨by ring, by ring, by ring⟩

/-- C1: for every sequence of relative moves whose prospective cumulative
    positions stay inside the configured axis ranges, issued through
    send_coordinates from a freshly connected sender, a subsequent
    current_position equals the component-wise sum of the displacements.
    The model is exact-rational, so exact equality holds, which implies the
    1e-6 tolerance of the specification. -/
theorem send_coordinates_position_sum (ms : List (Position × Feedrate)) (st : SenderState)
    (hc : st.connected = true) (h0 : st.trace = [])
    (hb : moves_in_range (0, 0, 0) (ms.map Prod.fst) = true) :
    ∃ st1, applyMoves st ms = Except.ok st1 ∧
      current_position st1 = some ⟨(moves_total (ms.map Prod.fst)).1,
        (moves_total (ms.map Prod.fst)).2.1, (moves_total (ms.map Prod.fst)).2.2⟩ := by
  obtain ⟨st1, hrun, hcon, hsum⟩ :=
    applyMoves_invariant ms st hc (by rw [h0, sum_traces_nil]; exact hb)
  refine ⟨st1, hrun, ?_⟩
  rw [h0, sum_traces_nil] at hsum
  simp [current_position, hcon, hsum]

/-- A freshly connected sender: empty trace, nothing written yet. -/
def freshSender : SenderState := ⟨true, [], [], 0, []⟩

/-- The move sequence of the end-to-end example of the specification. -/
def witnessMoves : List (Position × Feedrate) :=
  [(⟨1, 2, 0⟩, ⟨200⟩), (⟨-1, -2, 0⟩, ⟨200⟩)]

/-- Witness for C1 at the concrete two-move sequence (1,2,0), (-1,-2,0). -/
theorem send_coordinates_position_sum_witness :
    freshSender.connected = true ∧ freshSender.trace = [] ∧
    moves_in_range (0, 0, 0) (witnessMoves.map Prod.fst) = true ∧
    ∃ st1, applyMoves freshSender witnessMoves = Except.ok st1 ∧
      current_position st1 = some ⟨(moves_total (witnessMoves.map Prod.fst)).1,
        (moves_total (witnessMoves.map Prod.fst)).2.1,
        (moves_total (witnessMoves.map Prod.fst)).2.2⟩ :=
  ⟨rfl, rfl, by norm_num [witnessMoves, moves_in_range, outOfRange],
    send_coordinates_position_sum witnessMoves freshSender rfl rfl
      (by norm_num [witnessMoves, moves_in_range, outOfRange])⟩

/-- C2: for every connected sender, home issues exactly one G1 move, whose
    payload is the negated component-wise trace sum, leaves the trace
    empty, and a subsequent current_position is (0,0,0); when the trace is
    already empty it answers ok "Already centered" and leaves the whole
    state, in particular the wire, untouched. -/
theorem home_negates_trace_sum (st : SenderState) (f : Feedrate)
    (hc : st.connected = true) :
    ∃ ack st1, home st f = Except.ok (ack, st1) ∧
      st1.trace = [] ∧
      current_position st1 = some ⟨0, 0, 0⟩ ∧
      (st.trace = [] → ack = ⟨true, "Already centered", []⟩ ∧ st1 = st) ∧
      (st.trace ≠ [] → ack.ok = true ∧ ∃ delta, st1.writes = st.writes ++ delta ∧
        delta.filter isG1 = [GLine.g1 (-(sum_traces st.trace).1)
          (-(sum_traces st.trace).2.1) (-(sum_traces st.trace).2.2)]) := by
  obtain ⟨ack, st1, hrun, hcon, htr, hemp, hne⟩ := homeVia_spec 1 st f hc
  refine ⟨ack, st1, hrun, htr, ?_, hemp, ?_⟩
  · simp [current_position, hcon, htr, sum_traces_nil]
  · intro h
    obtain ⟨hok, hw⟩ := hne h
    exact ⟨hok, _, hw, by simp [frame_lines, isG1]⟩

/-- A connected sender that has accepted the single move (1,2,0). -/
def homeWitState : SenderState := ⟨true, [⟨1, 2, 0, 0⟩], [], 1, []⟩

/-- Witness for C2 at a sender whose trace holds the single move (1,2,0). -/
theorem home_negates_trace_sum_witness :
    homeWitState.connected = true ∧
    ∃ ack st1, home homeWitState ⟨200⟩ = Except.ok (ack, st1) ∧
      st1.trace = [] ∧
      current_position st1 = some ⟨0, 0, 0⟩ ∧
      (homeWitState.trace = [] → ack = ⟨true, "Already centered", []⟩ ∧ st1 = homeWitState) ∧
      (homeWitState.trace ≠ [] → ack.ok = true ∧
        ∃ delta, st1.writes = homeWitState.writes ++ delta ∧
        delta.filter isG1 = [GLine.g1 (-(sum_traces homeWitState.trace).1)
          (-(sum_traces homeWitState.trace).2.1) (-(sum_traces homeWitState.trace).2.2)]) :=
  ⟨rfl, home_negates_trace_sum homeWitState ⟨200⟩ rfl⟩

/-- C3: a relative move whose prospective cumulative position leaves the
    configured ranges is answered with ok=false "Range exceeded"; its
    framed G1 line is never written to the wire; home is invoked instead
    (the resulting state is exactly the state home produces), and the
    trace ends empty. -/
theorem send_coordinates_range_exceeded (st : SenderState) (p : Position) (f : Feedrate)
    (hc : st.connected = true)
    (hout : outOfRange (sum_traces st.trace).1 (sum_traces st.trace).2.1
      (sum_traces st.trace).2.2 p.x p.y p.z = true) :
    ∃ ackH st1, home st f = Except.ok (ackH, st1) ∧
      send_coordinates st p f = Except.ok (⟨false, "Range exceeded", []⟩, st1) ∧
      st1.trace = [] ∧
      ∃ delta, st1.writes = st.writes ++ delta ∧ GLine.g1 p.x p.y p.z ∉ delta := by
  obtain ⟨ackH, st1, hrun, hcon, htr, hemp, hne⟩ := homeVia_spec 0 st f hc
  have hhome : home st f = Except.ok (ackH, st1) := by
    have he : home st f = homeVia (sendCoordinatesF 1) st f := rfl
    rw [he, homeVia_fuel_eq 1 0 st f]
    exact hrun
  have hsend : send_coordinates st p f = Except.ok (⟨false, "Range exceeded", []⟩, st1) := by
    rw [send_coordinates, sendCoordinatesF.eq_def]
    simp [hc, hout, hrun]
  refine ⟨ackH, st1, hhome, hsend, htr, ?_⟩
  by_cases hem : st.trace = []
  · obtain ⟨hack, hst⟩ := hemp hem
    exact ⟨[], by simp [hst], by simp⟩
  · obtain ⟨hok, hw⟩ := hne hem
    refine ⟨_, hw, ?_⟩
    intro hmem
    simp [frame_lines] at hmem
    obtain ⟨hx, hy, hz⟩ := hmem
    rw [hx, hy, hz, outOfRange_neg_sum] at hout
    exact Bool.false_ne_true hout

/-- Witness for C3: from trace sum (1,2,0), the move (5,0,0) would reach
    x = 6, outside [-5,5]. -/
theorem send_coordinates_range_exceeded_witness :
    homeWitState.connected = true ∧
    outOfRange (sum_traces homeWitState.trace).1 (sum_traces homeWitState.trace).2.1
      (sum_traces homeWitState.trace).2.2 (5 : ℚ) 0 0 = true ∧
    ∃ ackH st1, home homeWitState ⟨200⟩ = Except.ok (ackH, st1) ∧
      send_coordinates homeWitState ⟨5, 0, 0⟩ ⟨200⟩ =
        Except.ok (⟨false, "Range exceeded", []⟩, st1) ∧
      st1.trace = [] ∧
      ∃ delta, st1.writes = homeWitState.writes ++ delta ∧
        GLine.g1 (5 : ℚ) 0 0 ∉ delta :=
  ⟨rfl,
    by norm_num [homeWitState, sum_traces, sortByTimestamp, insertByTimestamp, outOfRange],
    send_coordinates_range_exceeded homeWitState ⟨5, 0, 0⟩ ⟨200⟩ rfl
      (by norm_num [homeWitState, sum_traces, sortByTimestamp, insertByTimestamp, outOfRange])⟩

/-- C9 counterexample state: connected, one accepted move in the trace. -/
def disconnectWitState : SenderState := ⟨true, [⟨1, 2, 0, 3⟩], [], 4, []⟩

/-- C9 counterexample: after disconnect the accumulated trace is NOT
    empty; the source disconnect never touches the _coordinates list. -/
theorem disconnect_keeps_trace_cx :
    (disconnect disconnectWitState).trace = [⟨1, 2, 0, 3⟩] ∧
    (disconnect disconnectWitState).trace ≠ [] :=
  ⟨rfl, by simp [disconnect, disconnectWitState]⟩

/-- C9 amended: disconnect clears the connection state but leaves the
    position trace exactly as it was; the trace is only cleared by home. -/
theorem disconnect_clears_connection_only (st : SenderState) :
    (disconnect st).connected = false ∧ (disconnect st).trace = st.trace :=
  ⟨rfl, rfl⟩

/-- C10: for every connected sender and every command, send_raw answers
    with ok=true whenever it returns, also when wait_for_ok is set and no
    terminator line arrives before the read deadline; the expired deadline
    is never surfaced as ok=false or as a raised Timeout on this path. -/
theorem send_raw_always_ok (st : SenderState) (cmd : String) (w : Bool)
    (hc : st.connected = true) :
    (∃ rs st1, send_raw st cmd w =
      Except.ok (⟨true, if w then "ok" else "sent", rs⟩, st1)) ∧
    ∀ ack st1, send_raw st cmd w = Except.ok (ack, st1) → ack.ok = true := by
  have hmain : ∃ rs st1, send_raw st cmd w =
      Except.ok (⟨true, if w then "ok" else "sent", rs⟩, st1) := by
    cases hd : st.device with
    | nil =>
      cases w
      · exact ⟨[], { st with writes := st.writes ++ [GLine.raw cmd] },
          by simp [send_raw, send_command, hc]⟩
      · exact ⟨[], { st with writes := st.writes ++ [GLine.raw cmd] },
          by simp [send_raw, send_command, hc, hd]⟩
    | cons stream rest =>
      cases w
      · exact ⟨[], { st with writes := st.writes ++ [GLine.raw cmd] },
          by simp [send_raw, send_command, hc]⟩
      · exact ⟨read_until_ok 5 stream,
          { st with writes := st.writes ++ [GLine.raw cmd], device := rest },
          by simp [send_raw, send_command, hc, hd]⟩
  refine ⟨hmain, ?_⟩
  obtain ⟨rs, st1, heq⟩ := hmain
  intro ack st2 h2
  rw [heq] at h2
  obtain ⟨hack, -⟩ := Prod.mk.injEq .. ▸ (Except.ok.inj h2)
  rw [← hack]

/-- A connected sender whose device answers only after the 5 second read
    deadline has expired: the wait-for-ok read returns no lines. -/
def timeoutSender : SenderState := ⟨true, [], [], 0, [[⟨6, "ok"⟩]]⟩

/-- Witness for C10: the device stays silent until t = 6 > 5, the read
    loop gives up with no terminator seen, and send_raw still reports
    ok=true. -/
theorem send_raw_always_ok_witness :
    timeoutSender.connected = true ∧
    read_until_ok 5 [⟨6, "ok"⟩] = [] ∧
    ((∃ rs st1, send_raw timeoutSender "G1 X1" true =
      Except.ok (⟨true, if true then "ok" else "sent", rs⟩, st1)) ∧
    ∀ ack st1, send_raw timeoutSender "G1 X1" true = Except.ok (ack, st1) → ack.ok = true) :=
  ⟨rfl, by norm_num [read_until_ok], send_raw_always_ok timeoutSender "G1 X1" true rfl⟩

/-- GrblSender.read_until_ok from services/GrblSender.py, modelled with
    explicit fuel. The source computes deadline = monotonic + timeout_s,
    but the bounded loop condition is commented out, leaving while True,
    so the loop can exit only on a terminator line. Here dev i is the
    decoded, stripped result of the i-th readline ("" for an empty read);
    a none result means the loop has not returned within the given number
    of iterations. -/
def grbl_read_until_ok (dev : Nat → String) : Nat → Nat → Option (List String)
  | 0, _ => none
  | Nat.succ fuel, i =>
    if dev i = "" then grbl_read_until_ok dev fuel (i + 1)
    else if isTermLine (dev i) then some [dev i]
    else
      match grbl_read_until_ok dev fuel (i + 1) with
      | none => none
      | some rest => some (dev i :: rest)

/-- A device that never answers: every readline is empty. -/
def silent_device : Nat → String := fun _ => ""

/-- Outcome of CommandRequest.execute(): a returned acknowledgment or a
    raised exception, modelled by its message. -/
inductive ExecOutcome where
  | ack : (a : SerialAck) → ExecOutcome
  | raised : (e : String) → ExecOutcome
deriving DecidableEq, Repr

/-- CommandRequest dataclass from application/send_coordinates.py; the
    zero-argument execute callable is modelled by its outcome. -/
structure CommandRequest where
  name : String
  outcome : ExecOutcome
  status_text : String
  refresh_position : Bool
deriving DecidableEq, Repr

/-- An event published on the bus by the dispatcher worker, tagged with
    the value of the inflight flag at the moment of the publish. -/
inductive DispatchEvent where
  | statusPub : (text : String) → (inflight : Bool) → DispatchEvent
  | errorPub : (message exc : String) → (inflight : Bool) → DispatchEvent
  | resultPub : (a : SerialAck) → (inflight : Bool) → DispatchEvent
  | logPub : (line : String) → (inflight : Bool) → DispatchEvent
deriving DecidableEq, Repr

/-- The inflight tag of a published event. -/
def DispatchEvent.flag : DispatchEvent → Bool
  | statusPub _ b => b
  | errorPub _ _ b => b
  | resultPub _ b => b
  | logPub _ b => b

/-- One iteration of CommandDispatcher._run for one dequeued request:
    set inflight; publish the status text; call execute; when execute
    raised, or returned an acknowledgment with ok=false (re-raised as
    RuntimeError(message)), publish an error event carrying the command
    name and the exception; then, in the finally block, clear inflight,
    publish "Idle", publish the result and its response lines when an
    acknowledgment was assigned, and publish "refresh-position" when
    requested. Every event records the inflight flag at its publish. -/
def runOne (r : CommandRequest) : List DispatchEvent :=
  [DispatchEvent.statusPub r.status_text true]
  ++ (match r.outcome with
      | ExecOutcome.ack a =>
        if a.ok then []
        else [DispatchEvent.errorPub (r.name ++ " failed") a.message true]
      | ExecOutcome.raised e => [DispatchEvent.errorPub (r.name ++ " failed") e true])
  ++ [DispatchEvent.statusPub "Idle" false]
  ++ (match r.outcome with
      | ExecOutcome.ack a =>
        DispatchEvent.resultPub a false ::
          a.responses.map (fun l => DispatchEvent.logPub ("<< " ++ l) false)
      | ExecOutcome.raised _ => [])
  ++ (if r.refresh_position then [DispatchEvent.statusPub "refresh-position" false]
      else [])

/-- Dispatcher state: the FIFO queue, the requests executed so far in
    execution order, and the events published so far. -/
structure DispState where
  queue : List CommandRequest
  executed : List CommandRequest
  events : List DispatchEvent
deriving DecidableEq, Repr

/-- A step of the system: some caller thread invokes dispatch(r), or the
    single worker thread completes one loop iteration. -/
inductive DispatchAction where
  | dispatch : (r : CommandRequest) → DispatchAction
  | workerStep : DispatchAction
deriving DecidableEq, Repr

/-- dispatch() enqueues at the back (queue.Queue is FIFO); a worker step
    dequeues the head, executes it and appends its event block; with an
    empty queue the worker blocks on get and changes nothing. -/
def applyAction (s : DispState) : DispatchAction → DispState
  | DispatchAction.dispatch r => { s with queue := s.queue ++ [r] }
  | DispatchAction.workerStep =>
    match s.queue with
    | [] => s
    | r :: rest =>
      ⟨rest, s.executed ++ [r], s.events ++ runOne r⟩

/-- Run an arbitrary interleaving of dispatch calls and worker steps. -/
def applyActions (s : DispState) (acts : List DispatchAction) : DispState :=
  acts.foldl applyAction s

/-- The requests handed to dispatch, in call order. -/
def arrivals : List DispatchAction → List CommandRequest
  | [] => []
  | DispatchAction.dispatch r :: rest => r :: arrivals rest
  | DispatchAction.workerStep :: rest => arrivals rest

/-- The dispatcher before any call: empty queue, nothing executed. -/
def initDisp : DispState := ⟨[], [], []⟩

/-- State of the VisionGUI command front-end in main.py: the
    _command_inflight flag, the command status text variable, the command
    queue and the emitted instrumentation events. -/
structure GuiState where
  inflight : Bool
  status : String
  queue : List CommandRequest
  emitted : List String
deriving DecidableEq, Repr

/-- VisionGUI._dispatch_command: when a command is already inflight the
    request is dropped by an early return; otherwise the inflight flag is
    set, the status text updated, an enqueue_at event emitted and the
    request put on the queue. -/
def dispatch_command (st : GuiState) (r : CommandRequest) : GuiState :=
  if st.inflight then st
  else
    { inflight := true,
      status := if r.status_text = "" then r.name ++ "…" else r.status_text,
      queue := st.queue ++ [r],
      emitted := st.emitted ++ ["enqueue_at " ++ r.name] }

/-- IntervalScheduler from shared/scheduling.py; time.monotonic is passed
    in explicitly as now. -/
structure IntervalScheduler where
  interval : ℚ
  next_deadline : ℚ
deriving DecidableEq, Repr

/-- IntervalScheduler.timeout: remaining time to the next deadline. -/
def IntervalScheduler.timeout (s : IntervalScheduler) (now : ℚ) : ℚ :=
  max 0 (s.next_deadline - now)

/-- IntervalScheduler.defer: push the next deadline one interval out. -/
def IntervalScheduler.defer (s : IntervalScheduler) (now : ℚ) : IntervalScheduler :=
  { s with next_deadline := now + s.interval }

/-- IntervalScheduler.executed: record a tick and schedule the next. -/
def IntervalScheduler.executed (s : IntervalScheduler) (now : ℚ) : IntervalScheduler :=
  { s with next_deadline := now + s.interval }

/-- IntervalScheduler.skip_if: defer and report true when the condition
    holds. -/
def IntervalScheduler.skip_if (s : IntervalScheduler) (now : ℚ) (condition : Bool) :
    Bool × IntervalScheduler :=
  if condition then (true, s.defer now) else (false, s)

/-- An observable action of one poller tick; readPosition models the call
    of sender.current_position. -/
inductive PollAction where
  | readPosition : PollAction
  | publishPosition : (p : Position) → PollAction
  | publishError : (m : String) → PollAction
  | sleep : PollAction
deriving DecidableEq, Repr

/-- One tick body of PositionPoller._run after the wakeup wait (the
    scheduler variant of application/poll_current_position.py): skip_if
    the dispatcher is busy; if disconnected, sleep briefly and defer;
    otherwise call current_position, publishing an error and deferring if
    the call raises, else publishing the position when present and
    marking the tick executed. busy is the value of dispatcher.busy()
    read at the check. -/
def pollerTick (sched : IntervalScheduler) (now : ℚ) (busy connected : Bool)
    (posResult : Except String (Option Position)) :
    List PollAction × IntervalScheduler :=
  if (sched.skip_if now busy).1 then ([], (sched.skip_if now busy).2)
  else if connected = false then ([PollAction.sleep], sched.defer now)
  else
    match posResult with
    | Except.error m =>
      ([PollAction.readPosition, PollAction.publishError m], sched.defer now)
    | Except.ok none => ([PollAction.readPosition], sched.executed now)
    | Except.ok (some p) =>
      ([PollAction.readPosition, PollAction.publishPosition p], sched.executed now)

/-- One tick body of the second poller variant, in
    console_computational_vision/application/poll_current_position.py,
    which keeps a bare next_deadline instead of a scheduler object; the
    pair returned is the actions and the new next_deadline. -/
def pollerTickInline (interval now : ℚ) (busy connected : Bool)
    (posResult : Except String (Option Position)) : List PollAction × ℚ :=
  if busy then ([], now + interval)
  else if connected = false then ([PollAction.sleep], now + interval)
  else
    match posResult with
    | Except.error m =>
      ([PollAction.readPosition, PollAction.publishError m], now + interval)
    | Except.ok none => ([PollAction.readPosition], now + interval)
    | Except.ok (some p) =>
      ([PollAction.readPosition, PollAction.publishPosition p], now + interval)

/-- C4 (evidence for the code defect): on a device that never produces a
    line, GrblSender.read_until_ok does not return within any number of
    loop iterations, because its deadline check is commented out; and
    whenever the loop does return, the collected lines contain a
    terminator, so the TimeoutError branch of GrblSender.send_command,
    which fires only when no terminator was collected, is unreachable:
    the claimed bounded ~5 second read with a reported Timeout failure
    does not exist on this path. -/
theorem grbl_read_unbounded_no_timeout :
    (∀ fuel i, grbl_read_until_ok silent_device fuel i = none) ∧
    (∀ dev fuel i,
      Option.all (fun ls => ls.any isTermLine) (grbl_read_until_ok dev fuel i) = true) := by
  constructor
  · intro fuel
    induction fuel with
    | zero => intro i; rfl
    | succ n ih => intro i; simp [grbl_read_until_ok, silent_device, ih]
  · intro dev fuel
    induction fuel with
    | zero => intro i; rfl
    | succ n ih =>
      intro i
      by_cases h1 : dev i = ""
      · simpa [grbl_read_until_ok, h1] using ih (i + 1)
      · by_cases h2 : isTermLine (dev i)
        · simp [grbl_read_until_ok, h1, h2]
        · have h3 := ih (i + 1)
          cases hr : grbl_read_until_ok dev n (i + 1) with
          | none => simp [grbl_read_until_ok, h1, h2, hr]
          | some rest =>
            rw [hr] at h3
            simp only [Option.all_some] at h3
            simp [grbl_read_until_ok, h1, h2, hr, h3]

lemma applyActions_fifo (acts : List DispatchAction) (s : DispState) :
    (applyActions s acts).executed ++ (applyActions s acts).queue =
      s.executed ++ (s.queue ++ arrivals acts) := by
  induction acts generalizing s with
  | nil => simp [applyActions, arrivals]
  | cons a rest ih =>
    cases a with
    | dispatch r =>
      have h := ih { s with queue := s.queue ++ [r] }
      simp only [applyActions, List.foldl_cons, applyAction] at h ⊢
      rw [h]
      simp [arrivals]
    | workerStep =>
      cases hq : s.queue with
      | nil =>
        have h := ih s
        simp only [applyActions, List.foldl_cons, applyAction, hq] at h ⊢
        rw [h]
        simp [arrivals, hq]
      | cons r rq =>
        have h := ih ⟨rq, s.executed ++ [r], s.events ++ runOne r⟩
        simp only [applyActions, List.foldl_cons, applyAction, hq] at h ⊢
        rw [h]
        simp [arrivals]

lemma applyActions_events (acts : List DispatchAction) (s : DispState)
    (h : s.events = (s.executed.map runOne).flatten) :
    (applyActions s acts).events = ((applyActions s acts).executed.map runOne).flatten := by
  induction acts generalizing s with
  | nil => simpa [applyActions] using h
  | cons a rest ih =>
    cases a with
    | dispatch r =>
      simp only [applyActions, List.foldl_cons, applyAction]
      exact ih _ (by simpa using h)
    | workerStep =>
      cases hq : s.queue with
      | nil =>
        simp only [applyActions, List.foldl_cons, applyAction, hq]
        exact ih _ h
      | cons r rq =>
        simp only [applyActions, List.foldl_cons, applyAction, hq]
        exact ih _ (by simp [h])

lemma flag_of_mem_logs (resp : List String) (e : DispatchEvent)
    (he : e ∈ resp.map (fun l => DispatchEvent.logPub ("<< " ++ l) false)) :
    e.flag = false := by
  obtain ⟨l, -, hl⟩ := List.mem_map.mp he
  rw [← hl]
  rfl

lemma flag_of_mem_refresh (b : Bool) (e : DispatchEvent)
    (he : e ∈ if b then [DispatchEvent.statusPub "refresh-position" false] else []) :
    e.flag = false := by
  cases b
  · simp at he
  · simp at he
    rw [he]
    rfl

lemma runOne_span (r : CommandRequest) :
    ∃ pre post, runOne r = pre ++ DispatchEvent.statusPub "Idle" false :: post ∧
      pre.head? = some (DispatchEvent.statusPub r.status_text true) ∧
      (∀ e ∈ pre, e.flag = true) ∧ (∀ e ∈ post, e.flag = false) := by
  obtain ⟨name, outcome, stext, refresh⟩ := r
  cases outcome with
  | ack a =>
    by_cases hok : a.ok = true
    · refine ⟨[DispatchEvent.statusPub stext true],
        (DispatchEvent.resultPub a false ::
          a.responses.map (fun l => DispatchEvent.logPub ("<< " ++ l) false)) ++
        (if refresh then [DispatchEvent.statusPub "refresh-position" false] else []),
        ?_, rfl, ?_, ?_⟩
      · simp [runOne, hok]
      · intro e he
        simp at he
        rw [he]
        rfl
      · intro e he
        rcases List.mem_append.mp he with he | he
        · rcases List.mem_cons.mp he with he | he
          · rw [he]; rfl
          · exact flag_of_mem_logs a.responses e he
        · exact flag_of_mem_refresh refresh e he
    · refine ⟨[DispatchEvent.statusPub stext true,
        DispatchEvent.errorPub (name ++ " failed") a.message true],
        (DispatchEvent.resultPub a false ::
          a.responses.map (fun l => DispatchEvent.logPub ("<< " ++ l) false)) ++
        (if refresh then [DispatchEvent.statusPub "refresh-position" false] else []),
        ?_, rfl, ?_, ?_⟩
      · simp [runOne, hok]
      · intro e he
        rcases List.mem_cons.mp he with he | he
        · rw [he]; rfl
        · simp at he
          rw [he]
          rfl
      · intro e he
        rcases List.mem_append.mp he with he | he
        · rcases List.mem_cons.mp he with he | he
          · rw [he]; rfl
          · exact flag_of_mem_logs a.responses e he
        · exact flag_of_mem_refresh refresh e he
  | raised ex =>
    refine ⟨[DispatchEvent.statusPub stext true,
      DispatchEvent.errorPub (name ++ " failed") ex true],
      (if refresh then [DispatchEvent.statusPub "refresh-position" false] else []),
      ?_, rfl, ?_, ?_⟩
    · simp [runOne]
    · intro e he
      rcases List.mem_cons.mp he with he | he
      · rw [he]; rfl
      · simp at he
        rw [he]
        rfl
    · intro e he
      exact flag_of_mem_refresh refresh e he

/-- C5 amended: the dispatcher executes requests in strict FIFO order in
    every interleaving of dispatch calls and worker steps (the executed
    sequence followed by the still-queued sequence is exactly the arrival
    sequence, and the event trace is the concatenation of the per-request
    blocks in execution order, never interleaved), and within one request
    the inflight flag is true from the busy-status publish through any
    error publish, but is cleared immediately before the "Idle" publish:
    the flag is false at the "Idle" publish and at every later publish of
    the block. -/
theorem dispatcher_fifo_inflight_span (acts : List DispatchAction) (r : CommandRequest) :
    ((applyActions initDisp acts).executed ++ (applyActions initDisp acts).queue =
      arrivals acts) ∧
    ((applyActions initDisp acts).events =
      ((applyActions initDisp acts).executed.map runOne).flatten) ∧
    (∃ pre post, runOne r = pre ++ DispatchEvent.statusPub "Idle" false :: post ∧
      pre.head? = some (DispatchEvent.statusPub r.status_text true) ∧
      (∀ e ∈ pre, e.flag = true) ∧ (∀ e ∈ post, e.flag = false)) :=
  ⟨by simpa [initDisp] using applyActions_fifo acts initDisp,
   applyActions_events acts initDisp rfl,
   runOne_span r⟩

/-- The Move request of SendCoordinatesUseCase, succeeding with an empty
    response list. -/
def moveReq : CommandRequest := ⟨"Move", ExecOutcome.ack ⟨true, "ok", []⟩, "Moving…", true⟩

/-- C5 counterexample: in the event block of a successfully executed Move
    request, the "Idle" status publish carries inflight=false, and no
    "Idle" publish with inflight=true exists: the flag is not true up to
    and including the Idle publish, because _run clears it before
    publishing "Idle". -/
theorem idle_publish_inflight_false_cx :
    DispatchEvent.statusPub "Idle" false ∈ runOne moveReq ∧
    DispatchEvent.statusPub "Idle" true ∉ runOne moveReq := by
  constructor
  · simp [runOne, moveReq]
  · simp [runOne, moveReq]

/-- C6: a request whose execute raises an exception produces an error
    event carrying the command name and the exception, the worker loop
    does not crash, and the next queued request is still dequeued and
    executed, its event block following in full. -/
theorem dispatcher_error_isolated (r r2 : CommandRequest) (e : String)
    (h : r.outcome = ExecOutcome.raised e) :
    DispatchEvent.errorPub (r.name ++ " failed") e true ∈ runOne r ∧
    (applyActions initDisp [DispatchAction.dispatch r, DispatchAction.dispatch r2,
      DispatchAction.workerStep, DispatchAction.workerStep]).executed = [r, r2] ∧
    (applyActions initDisp [DispatchAction.dispatch r, DispatchAction.dispatch r2,
      DispatchAction.workerStep, DispatchAction.workerStep]).events =
      runOne r ++ runOne r2 := by
  refine ⟨?_, ?_, ?_⟩
  · simp [runOne, h]
  · simp [applyActions, applyAction, initDisp]
  · simp [applyActions, applyAction, initDisp]

/-- A Move request whose transport read raised a TimeoutError. -/
def timeoutReq : CommandRequest :=
  ⟨"Move", ExecOutcome.raised "TimeoutError", "Moving…", true⟩

/-- Witness for C6: a timed-out Move followed by a successful Move. -/
theorem dispatcher_error_isolated_witness :
    timeoutReq.outcome = ExecOutcome.raised "TimeoutError" ∧
    (DispatchEvent.errorPub (timeoutReq.name ++ " failed") "TimeoutError" true
        ∈ runOne timeoutReq ∧
      (applyActions initDisp [DispatchAction.dispatch timeoutReq,
        DispatchAction.dispatch moveReq,
        DispatchAction.workerStep, DispatchAction.workerStep]).executed =
        [timeoutReq, moveReq] ∧
      (applyActions initDisp [DispatchAction.dispatch timeoutReq,
        DispatchAction.dispatch moveReq,
        DispatchAction.workerStep, DispatchAction.workerStep]).events =
        runOne timeoutReq ++ runOne moveReq) :=
  ⟨rfl, dispatcher_error_isolated timeoutReq moveReq "TimeoutError" rfl⟩

/-- C7 amended, positive part: every request in the worker queue is
    reported once executed: the event trace of draining a queue contains,
    for each request, either the result publish of its acknowledgment or
    an error publish naming it; nothing that reaches the queue is
    silently dropped by the CommandDispatcher worker. -/
theorem dispatcher_reports_every_request (rs : List CommandRequest) (r : CommandRequest)
    (h : r ∈ rs) :
    (∃ a, r.outcome = ExecOutcome.ack a ∧
      DispatchEvent.resultPub a false ∈ (rs.map runOne).flatten) ∨
    (∃ e, DispatchEvent.errorPub (r.name ++ " failed") e true ∈ (rs.map runOne).flatten) := by
  have hmem : ∀ ev, ev ∈ runOne r → ev ∈ (rs.map runOne).flatten := by
    intro ev hev
    exact List.mem_flatten.mpr ⟨runOne r, List.mem_map_of_mem runOne h, hev⟩
  cases ho : r.outcome with
  | ack a => exact Or.inl ⟨a, rfl, hmem _ (by simp [runOne, ho])⟩
  | raised e => exact Or.inr ⟨e, hmem _ (by simp [runOne, ho])⟩

/-- Witness for C7: a one-request queue holding a timed-out Move. -/
theorem dispatcher_reports_every_request_witness :
    timeoutReq ∈ [timeoutReq] ∧
    ((∃ a, timeoutReq.outcome = ExecOutcome.ack a ∧
      DispatchEvent.resultPub a false ∈ ([timeoutReq].map runOne).flatten) ∨
    (∃ e, DispatchEvent.errorPub (timeoutReq.name ++ " failed") e true
      ∈ ([timeoutReq].map runOne).flatten)) :=
  ⟨List.mem_singleton_self timeoutReq,
    dispatcher_reports_every_request [timeoutReq] timeoutReq
      (List.mem_singleton_self timeoutReq)⟩

/-- A GUI state with a command already inflight and an empty queue. -/
def busyGui : GuiState := ⟨true, "Homing…", [], []⟩

/-- C7 counterexample: a request handed to VisionGUI._dispatch_command
    while another command is inflight is silently dropped by the early
    return: the state is completely unchanged, so the request is never
    enqueued, never executed, and no event or status reports a failure. -/
theorem gui_dispatch_drops_when_inflight_cx :
    dispatch_command busyGui moveReq = busyGui ∧
    (dispatch_command busyGui moveReq).queue = [] ∧
    (dispatch_command busyGui moveReq).emitted = [] :=
  ⟨rfl, rfl, rfl⟩

/-- C8: when the dispatcher busy flag read at the tick check is true,
    neither poller variant calls current_position: the tick performs no
    action at all (in particular no readPosition) and the next deadline
    is deferred by one interval. The flag is read exactly once per tick,
    so in every interleaving no position read occurs on a tick whose
    check saw the dispatcher busy. -/
theorem poller_skips_when_busy (sched : IntervalScheduler) (now interval : ℚ)
    (connected : Bool) (posResult : Except String (Option Position)) :
    (pollerTick sched now true connected posResult).1 = [] ∧
    PollAction.readPosition ∉ (pollerTick sched now true connected posResult).1 ∧
    ((pollerTick sched now true connected posResult).2).next_deadline =
      now + sched.interval ∧
    (pollerTickInline interval now true connected posResult).1 = [] ∧
    (pollerTickInline interval now true connected posResult).2 = now + interval := by
  refine ⟨?_, ?_, ?_, ?_, ?_⟩
  · simp [pollerTick, IntervalScheduler.skip_if]
  · simp [pollerTick, IntervalScheduler.skip_if]
  · simp [pollerTick, IntervalScheduler.skip_if, IntervalScheduler.defer]
  · simp [pollerTickInline]
  · simp [pollerTickInline]

end AutoKraft
